import Mathlib

/-!
Verification development for the analysis-task / entitlement system.

The definitions below are a shallow embedding of the Python sources:
  * src/src/models/membership.py   (MembershipPlan, Order, UserMembership, DailyUsage)
  * src/src/models/user.py         (User)
  * src/src/models/task.py         (AnalysisTask)
  * src/src/services/membership_service.py
  * src/src/services/user_service.py
  * src/web/services.py            (AnalysisService)

Modelling conventions:
  * Time is a natural number of seconds; `timedelta(days = d)` is
    `d * secondsPerDay`; a calendar date is a natural day number.
  * Database rows are records in lists; a SQLAlchemy session is modelled by
    explicit state passing, and a transaction by returning either the new
    state (commit) or the unchanged original state (rollback).
  * `scalar_one_or_none` is modelled by `scalarOneOrNone`, which errors when
    more than one row matches, exactly like SQLAlchemy.  Lookups on columns
    with a storage-level primary-key or unique index (orders.order_no,
    users.id, membership_plans.id) are modelled with `List.find?`, since a
    well-formed store cannot hold two rows with the same key.
  * Python truthiness of an optional integer (`if user_id:`) is `truthy`.
-/

namespace GuZhi

/-- Number of seconds in one day, the unit behind `timedelta(days = d)`. -/
def secondsPerDay : Nat := 86400

/-- Python truthiness of an optional integer: `None` and `0` are falsy. -/
def truthy : Option Nat → Bool
  | none => false
  | some n => n != 0

/-- Embeds SQLAlchemy `Result.scalar_one_or_none()`: `none` when no row
matches, the row when exactly one matches, and an error (the
`MultipleResultsFound` exception) when several match. -/
def scalarOneOrNone (p : α → Bool) (l : List α) : Except String (Option α) :=
  match l.filter p with
  | [] => .ok none
  | [a] => .ok (some a)
  | _ => .error "MultipleResultsFound"

/-- Embeds the `orders` row of src/src/models/membership.py. -/
structure Order where
  id : Nat
  orderNo : String
  userId : Nat
  planId : Nat
  paymentStatus : String
  paymentMethod : String
  transactionId : Option String
  paidAt : Option Nat
  expireAt : Option Nat
deriving Repr, DecidableEq

/-- Embeds `Order.can_pay` (src/src/models/membership.py, lines 157-163). -/
def Order.can_pay (o : Order) (now : Nat) : Bool :=
  if o.paymentStatus != "pending" then false
  else
    match o.expireAt with
    | some e => if now > e then false else true
    | none => true

/-- Embeds `Order.mark_paid` (src/src/models/membership.py, lines 165-170). -/
def Order.mark_paid (o : Order) (paymentMethod : String) (transactionId : Option String)
    (now : Nat) : Order :=
  { o with paymentStatus := "paid", paymentMethod := paymentMethod,
           transactionId := transactionId, paidAt := some now }

/-- Embeds the `membership_plans` row of src/src/models/membership.py. -/
structure MembershipPlan where
  id : Nat
  name : String
  durationDays : Nat
  dailyAnalysisLimit : Int
  watchlistLimit : Nat
  isActive : Bool
deriving Repr, DecidableEq

/-- Embeds the `user_memberships` row of src/src/models/membership.py. -/
structure UserMembership where
  id : Nat
  userId : Nat
  planId : Nat
  orderId : Option Nat
  startAt : Nat
  expireAt : Nat
  status : String
deriving Repr, DecidableEq

/-- Embeds the `users` row of src/src/models/user.py, keeping the columns the
claims need (entitlement snapshot, referrer, email, lifetime counter). -/
structure User where
  id : Nat
  email : Option String
  membershipLevel : String
  membershipExpire : Option Nat
  referrerId : Option Nat
  totalAnalysisCount : Nat
deriving Repr, DecidableEq

/-- Embeds `User.is_membership_valid` (src/src/models/user.py, lines 103-109). -/
def User.is_membership_valid (u : User) (now : Nat) : Bool :=
  if u.membershipLevel == "free" then false
  else
    match u.membershipExpire with
    | none => false
    | some e => decide (e > now)

/-- The durable store seen by MembershipService: one list per table. -/
structure DB where
  orders : List Order
  plans : List MembershipPlan
  memberships : List UserMembership
  users : List User
  nextMembershipId : Nat
deriving Repr, DecidableEq

/-- Embeds the membership query used by `_activate_membership`,
`get_user_membership` and the sweep: user matches, status is `active` and
`expire_at > now`. -/
def validQuery (now uid : Nat) (m : UserMembership) : Bool :=
  m.userId == uid && m.status == "active" && decide (now < m.expireAt)

/-- Embeds the `level_map` lookup with default `monthly`
(src/src/services/membership_service.py, lines 444-450). -/
def levelMap (planName : String) : String :=
  if planName == "周卡" then "weekly"
  else if planName == "月卡" then "monthly"
  else if planName == "季卡" then "quarterly"
  else if planName == "年卡" then "yearly"
  else "monthly"

/-- Row update keyed by membership id, as performed on a session object. -/
def updateMembershipById (ms : List UserMembership) (mid : Nat)
    (f : UserMembership → UserMembership) : List UserMembership :=
  ms.map (fun m => if m.id == mid then f m else m)

/-- Row update keyed by user id, as performed on a session object. -/
def updateUserById (us : List User) (uid : Nat) (f : User → User) : List User :=
  us.map (fun u => if u.id == uid then f u else u)

/-- In-place extension `existing.expire_at = existing.expire_at + timedelta(days =
plan.duration_days)` of `_activate_membership`. -/
def extendRowBy (plan : MembershipPlan) (m : UserMembership) : UserMembership :=
  { m with expireAt := m.expireAt + plan.durationDays * secondsPerDay }

/-- Denormalized snapshot write of `_activate_membership`: membership level
from the plan name, expiry mirrored from the authoritative row. -/
def snapshotUpdate (plan : MembershipPlan) (newExpire : Nat) (u : User) : User :=
  { u with membershipLevel := levelMap plan.name, membershipExpire := some newExpire }

/-- Embeds `MembershipService._activate_membership`
(src/src/services/membership_service.py, lines 388-457).  The catch-all
`except` around the body is modelled by the `storageExc` oracle: `some msg`
is a raised storage error, returned as `(False, str(e))`; the
`scalar_one_or_none` call can also raise.  On any error the caller rolls the
session back. -/
def activate_membership (db : DB) (now uid : Nat) (plan : MembershipPlan)
    (orderId : Nat) (storageExc : Option String) : Except String DB :=
  match storageExc with
  | some msg => .error msg
  | none =>
    match scalarOneOrNone (validQuery now uid) db.memberships with
    | .error e => .error e
    | .ok found =>
      let step : DB × Nat :=
        match found with
        | some existing =>
          ({ db with memberships :=
              updateMembershipById db.memberships existing.id (extendRowBy plan) },
           existing.expireAt + plan.durationDays * secondsPerDay)
        | none =>
          let e := now + plan.durationDays * secondsPerDay
          let m : UserMembership :=
            ⟨db.nextMembershipId, uid, plan.id, some orderId, now, e, "active"⟩
          ({ db with memberships := db.memberships ++ [m],
                     nextMembershipId := db.nextMembershipId + 1 }, e)
      .ok { step.1 with users := updateUserById step.1.users uid (snapshotUpdate plan step.2) }

/-- Result of `process_payment`: the returned pair, the committed store, and
the referral-reward hook call fired after the commit (if any). -/
structure PayResult where
  success : Bool
  msg : String
  db : DB
  rewardCall : Option (Nat × Nat × String)
deriving Repr, DecidableEq

/-- Session-level write of an order row keyed by its unique order number. -/
def DB.setOrder (db : DB) (orderNo : String) (o : Order) : DB :=
  { db with orders := db.orders.map (fun x => if x.orderNo == orderNo then o else x) }

/-- Embeds `MembershipService.process_payment`
(src/src/services/membership_service.py, lines 134-199).  Modelled from the
spec: `src.storage.get_session` is not part of the snapshot, so its
transaction semantics follow the spec sentence that settlement is
all-or-nothing — session writes become visible only at `session.commit()`,
and a return without commit (or an explicit `session.rollback()`) leaves the
store unchanged. -/
def process_payment (db : DB) (now : Nat) (orderNo payChannel : String)
    (tradeNo : Option String) (activationExc : Option String) : PayResult :=
  match db.orders.find? (fun o => o.orderNo == orderNo) with
  | none => ⟨false, "订单不存在", db, none⟩
  | some order =>
    if order.paymentStatus == "paid" then ⟨true, "订单已支付", db, none⟩
    else if !(order.can_pay now) then ⟨false, "订单已过期或无法支付", db, none⟩
    else
      let sess := db.setOrder orderNo (order.mark_paid payChannel tradeNo now)
      match sess.plans.find? (fun p => p.id == order.planId) with
      | none => ⟨false, "套餐信息异常", db, none⟩
      | some plan =>
        match activate_membership sess now order.userId plan order.id activationExc with
        | .error msg => ⟨false, msg, db, none⟩
        | .ok sess2 =>
          let referrerId := (sess2.users.find? (fun u => u.id == order.userId)).bind
            (fun u => u.referrerId)
          { success := true, msg := "支付成功，会员已开通", db := sess2,
            rewardCall :=
              if truthy referrerId then some (referrerId.getD 0, order.userId, plan.name)
              else none }

/-- An order that is already settled, for concrete evaluations. -/
def samplePaidOrder : Order :=
  ⟨1, "M20250101ABCD", 7, 1, "paid", "wechat", some "tx1", some 100, some 7300⟩

/-- A one-order store whose only order is already paid. -/
def samplePaidDB : DB := ⟨[samplePaidOrder], [], [], [], 1⟩

/-- C1: settlement is idempotent — when the order behind the given order
number already has payment_status `paid`, `process_payment` returns success,
leaves the whole store (orders, memberships, entitlement snapshots)
unchanged, and fires no referral reward hook. -/
theorem C1_settlement_idempotent (db : DB) (now : Nat) (orderNo payChannel : String)
    (tradeNo : Option String) (activationExc : Option String) (o : Order)
    (hfind : db.orders.find? (fun x => x.orderNo == orderNo) = some o)
    (hpaid : o.paymentStatus = "paid") :
    process_payment db now orderNo payChannel tradeNo activationExc =
      ⟨true, "订单已支付", db, none⟩ := by
  unfold process_payment
  rw [hfind]
  simp [hpaid]

/-- Witness for C1 at a concrete store: the sample order is found and is
paid, and re-settling it is a no-op success. -/
theorem C1_settlement_idempotent_witness :
    samplePaidDB.orders.find? (fun x => x.orderNo == "M20250101ABCD") = some samplePaidOrder ∧
    process_payment samplePaidDB 500 "M20250101ABCD" "alipay" (some "tx2") none =
      ⟨true, "订单已支付", samplePaidDB, none⟩ :=
  ⟨by decide,
   C1_settlement_idempotent samplePaidDB 500 "M20250101ABCD" "alipay" (some "tx2") none
     samplePaidOrder (by decide) (by decide)⟩

/-- C2: settlement is all-or-nothing — whenever `process_payment` reports
failure (order unknown, order not payable, plan missing, or membership
activation error) the store is returned unchanged, so no order is left
`paid`, no membership row is created or extended, no entitlement snapshot is
touched, and no reward hook fires. -/
theorem C2_settlement_all_or_nothing (db : DB) (now : Nat) (orderNo payChannel : String)
    (tradeNo : Option String) (activationExc : Option String) :
    (process_payment db now orderNo payChannel tradeNo activationExc).success = false →
    (process_payment db now orderNo payChannel tradeNo activationExc).db = db ∧
    (process_payment db now orderNo payChannel tradeNo activationExc).rewardCall = none := by
  unfold process_payment
  dsimp only
  split
  · exact fun _ => ⟨rfl, rfl⟩
  · split
    · intro h; simp at h
    · split
      · exact fun _ => ⟨rfl, rfl⟩
      · split
        · exact fun _ => ⟨rfl, rfl⟩
        · split
          · exact fun _ => ⟨rfl, rfl⟩
          · intro h; simp at h

/-- Witness for C2 at a concrete store: settling an unknown order number
fails and leaves the store untouched. -/
theorem C2_settlement_all_or_nothing_witness :
    (process_payment samplePaidDB 500 "NOPE" "wechat" none none).success = false ∧
    (process_payment samplePaidDB 500 "NOPE" "wechat" none none).db = samplePaidDB ∧
    (process_payment samplePaidDB 500 "NOPE" "wechat" none none).rewardCall = none :=
  ⟨by decide,
   C2_settlement_all_or_nothing samplePaidDB 500 "NOPE" "wechat" none none (by decide)⟩

/-- A pending order whose expiry deadline has passed at time 8000. -/
def samplePendingOrder : Order :=
  ⟨2, "M20250102EEFF", 7, 1, "pending", "wechat", none, none, some 7200⟩

/-- A refunded order, for the wrong-state branch of C8. -/
def sampleRefundedOrder : Order :=
  ⟨3, "M20250103GGHH", 7, 1, "refunded", "wechat", some "tx9", some 50, some 7200⟩

/-- A two-order store exercising both failure branches of C8. -/
def sampleStateDB : DB := ⟨[samplePendingOrder, sampleRefundedOrder], [], [], [], 1⟩

/-- C8: an order becomes `paid` only from `pending` and only before its
expiry deadline — if the order's status is neither `pending` nor the
idempotent `paid` case, or if its deadline lies strictly in the past,
`process_payment` fails with the not-payable message and returns the store
unchanged (so the order's payment_status is untouched). -/
theorem C8_paid_only_from_pending (db : DB) (now : Nat) (orderNo payChannel : String)
    (tradeNo : Option String) (activationExc : Option String) (o : Order)
    (hfind : db.orders.find? (fun x => x.orderNo == orderNo) = some o) :
    (o.paymentStatus ≠ "pending" → o.paymentStatus ≠ "paid" →
      process_payment db now orderNo payChannel tradeNo activationExc =
        ⟨false, "订单已过期或无法支付", db, none⟩) ∧
    (∀ e, o.expireAt = some e → e < now → o.paymentStatus ≠ "paid" →
      process_payment db now orderNo payChannel tradeNo activationExc =
        ⟨false, "订单已过期或无法支付", db, none⟩) := by
  constructor
  · intro hnp hnpaid
    unfold process_payment
    rw [hfind]
    have hcan : o.can_pay now = false := by
      unfold Order.can_pay
      simp [hnp]
    simp [hnpaid, hcan]
  · intro e he hlt hnpaid
    unfold process_payment
    rw [hfind]
    have hcan : o.can_pay now = false := by
      unfold Order.can_pay
      rw [he]
      by_cases hs : o.paymentStatus != "pending" <;> simp [hs]
      omega
    simp [hnpaid, hcan]

/-- Witness for C8 at a concrete store: a refunded order cannot be paid, and
a pending order past its deadline cannot be paid; both leave the store
unchanged. -/
theorem C8_paid_only_from_pending_witness :
    (process_payment sampleStateDB 8000 "M20250103GGHH" "wechat" none none =
      ⟨false, "订单已过期或无法支付", sampleStateDB, none⟩) ∧
    (process_payment sampleStateDB 8000 "M20250102EEFF" "wechat" none none =
      ⟨false, "订单已过期或无法支付", sampleStateDB, none⟩) :=
  ⟨(C8_paid_only_from_pending sampleStateDB 8000 "M20250103GGHH" "wechat" none none
      sampleRefundedOrder (by decide)).1 (by decide) (by decide),
   (C8_paid_only_from_pending sampleStateDB 8000 "M20250102EEFF" "wechat" none none
      samplePendingOrder (by decide)).2 7200 rfl (by decide) (by decide)⟩

/-- Activation over a store holding exactly one currently-valid membership
for the user: that row is extended in place by the plan's duration and the
user's snapshot is updated to the new expiry. -/
theorem activate_membership_extends (db : DB) (now uid : Nat) (plan : MembershipPlan)
    (orderId : Nat) (m : UserMembership)
    (hm : db.memberships.filter (validQuery now uid) = [m]) :
    activate_membership db now uid plan orderId none =
      .ok { db with
        memberships := updateMembershipById db.memberships m.id (extendRowBy plan),
        users := updateUserById db.users uid
          (snapshotUpdate plan (m.expireAt + plan.durationDays * secondsPerDay)) } := by
  unfold activate_membership scalarOneOrNone
  rw [hm]

/-- Activation over a store holding no currently-valid membership for the
user: a fresh row anchored at `now` is appended and the snapshot updated. -/
theorem activate_membership_creates (db : DB) (now uid : Nat) (plan : MembershipPlan)
    (orderId : Nat)
    (hm : db.memberships.filter (validQuery now uid) = []) :
    activate_membership db now uid plan orderId none =
      .ok { db with
        memberships := db.memberships ++
          [⟨db.nextMembershipId, uid, plan.id, some orderId, now,
            now + plan.durationDays * secondsPerDay, "active"⟩],
        nextMembershipId := db.nextMembershipId + 1,
        users := updateUserById db.users uid
          (snapshotUpdate plan (now + plan.durationDays * secondsPerDay)) } := by
  unfold activate_membership scalarOneOrNone
  rw [hm]

/-- C3: membership extension is additive — settling a payable pending order
for a plan of duration `d` over a store whose unique currently-valid
membership for the buyer expires at `T` rewrites only that row, to expire at
exactly `T + d` days (its start and every other field untouched, no row
added); over a store with no currently-valid membership it appends one fresh
row starting at `now` and expiring at `now + d` days. -/
theorem C3_membership_extension_additive (db : DB) (now : Nat) (orderNo payChannel : String)
    (tradeNo : Option String) (o : Order) (plan : MembershipPlan)
    (hfind : db.orders.find? (fun x => x.orderNo == orderNo) = some o)
    (hpend : o.paymentStatus = "pending")
    (hcan : o.can_pay now = true)
    (hplan : db.plans.find? (fun p => p.id == o.planId) = some plan) :
    (∀ m, db.memberships.filter (validQuery now o.userId) = [m] →
      (process_payment db now orderNo payChannel tradeNo none).success = true ∧
      (process_payment db now orderNo payChannel tradeNo none).db.memberships =
        updateMembershipById db.memberships m.id (extendRowBy plan)) ∧
    (db.memberships.filter (validQuery now o.userId) = [] →
      (process_payment db now orderNo payChannel tradeNo none).success = true ∧
      (process_payment db now orderNo payChannel tradeNo none).db.memberships =
        db.memberships ++
          [⟨db.nextMembershipId, o.userId, plan.id, some o.id, now,
            now + plan.durationDays * secondsPerDay, "active"⟩]) := by
  have hnpaid : (o.paymentStatus == "paid") = false := by simp [hpend]
  have hplan2 : (db.setOrder orderNo (o.mark_paid payChannel tradeNo now)).plans.find?
      (fun p => p.id == o.planId) = some plan := hplan
  constructor
  · intro m hm
    have hm2 : (db.setOrder orderNo (o.mark_paid payChannel tradeNo now)).memberships.filter
        (validQuery now o.userId) = [m] := hm
    have hact := activate_membership_extends
      (db.setOrder orderNo (o.mark_paid payChannel tradeNo now)) now o.userId plan o.id m hm2
    unfold process_payment
    simp only [hfind, hnpaid, hcan, Bool.not_true, Bool.false_eq_true, if_false, hplan2, hact]
    exact ⟨trivial, rfl⟩
  · intro hm
    have hm2 : (db.setOrder orderNo (o.mark_paid payChannel tradeNo now)).memberships.filter
        (validQuery now o.userId) = [] := hm
    have hact := activate_membership_creates
      (db.setOrder orderNo (o.mark_paid payChannel tradeNo now)) now o.userId plan o.id hm2
    unfold process_payment
    simp only [hfind, hnpaid, hcan, Bool.not_true, Bool.false_eq_true, if_false, hplan2, hact]
    exact ⟨trivial, rfl⟩

/-- A thirty-day plan, for concrete evaluations. -/
def samplePlan : MembershipPlan := ⟨1, "月卡", 30, -1, 200, true⟩

/-- A free-tier buyer with no referrer. -/
def sampleBuyer : User := ⟨7, some "buyer@example.com", "free", none, none, 0⟩

/-- A currently-valid membership for the sample buyer, expiring at 10000. -/
def sampleValidMembership : UserMembership := ⟨10, 7, 1, some 1, 0, 10000, "active"⟩

/-- A payable pending order of the sample buyer for the sample plan. -/
def sampleOrderPending2 : Order := ⟨2, "M2", 7, 1, "pending", "wechat", none, none, some 7200⟩

/-- Store with one valid membership, for the extend branch of C3. -/
def sampleExtendDB : DB :=
  ⟨[sampleOrderPending2], [samplePlan], [sampleValidMembership], [sampleBuyer], 11⟩

/-- Store with no membership rows, for the create branch of C3. -/
def sampleCreateDB : DB := ⟨[sampleOrderPending2], [samplePlan], [], [sampleBuyer], 1⟩

/-- Witness for C3 at concrete stores: the sample settlement extends the
unique valid membership by thirty days in place, and over the empty store
creates one row anchored at `now = 500`. -/
theorem C3_membership_extension_additive_witness :
    sampleExtendDB.memberships.filter (validQuery 500 7) = [sampleValidMembership] ∧
    ((process_payment sampleExtendDB 500 "M2" "wechat" none none).success = true ∧
      (process_payment sampleExtendDB 500 "M2" "wechat" none none).db.memberships =
        updateMembershipById sampleExtendDB.memberships sampleValidMembership.id
          (extendRowBy samplePlan)) ∧
    ((process_payment sampleCreateDB 500 "M2" "wechat" none none).success = true ∧
      (process_payment sampleCreateDB 500 "M2" "wechat" none none).db.memberships =
        sampleCreateDB.memberships ++
          [⟨sampleCreateDB.nextMembershipId, 7, samplePlan.id, some 2, 500,
            500 + samplePlan.durationDays * secondsPerDay, "active"⟩]) ∧
    (process_payment sampleExtendDB 500 "M2" "wechat" none none).db.memberships =
      [⟨10, 7, 1, some 1, 0, 10000 + 30 * secondsPerDay, "active"⟩] :=
  ⟨by decide,
   (C3_membership_extension_additive sampleExtendDB 500 "M2" "wechat" none
      sampleOrderPending2 samplePlan (by decide) (by decide) (by decide) (by decide)).1
      sampleValidMembership (by decide),
   (C3_membership_extension_additive sampleCreateDB 500 "M2" "wechat" none
      sampleOrderPending2 samplePlan (by decide) (by decide) (by decide) (by decide)).2
      (by decide),
   by decide⟩

/-- Structured result of the external analysis unit of work
(src/web/services.py, lines 349-356). -/
structure ResultData where
  code : String
  name : String
  sentimentScore : Int
  operationAdvice : String
deriving Repr, DecidableEq

/-- One task record.  The in-memory cache entry and the durable
`analysis_tasks` row are driven through identical statuses by the same
`_update_task_status` call, so they are modelled as this one record. -/
structure TaskRec where
  taskId : String
  code : String
  status : String
  userId : Option Nat
  result : Option ResultData
  errMsg : Option String
deriving Repr, DecidableEq

/-- Embeds the `daily_usage` row of src/src/models/membership.py. -/
structure DailyUsage where
  userId : Nat
  usageDate : Nat
  analysisCount : Nat
deriving Repr, DecidableEq

/-- One analysis-history row (the fields the claims observe). -/
structure HistoryRec where
  userId : Nat
  taskId : String
  stockCode : String
  stockName : String
deriving Repr, DecidableEq

/-- State seen by AnalysisService and UserService: tasks, the quota ledger,
users, analysis history, and the e-mails handed to the notifier. -/
structure WebState where
  tasks : List TaskRec
  dailyUsage : List DailyUsage
  users : List User
  history : List HistoryRec
  emailsSent : List (String × String)
deriving Repr, DecidableEq

/-- Key predicate of every `daily_usage` query: row for this user and day. -/
def usageKey (uid today : Nat) (r : DailyUsage) : Bool :=
  r.userId == uid && r.usageDate == today

/-- Embeds `UserService.get_today_usage` (src/src/services/user_service.py,
lines 349-375): fetch today's row, lazily creating a zero row if absent. -/
def get_today_usage (st : WebState) (uid today : Nat) : WebState × DailyUsage :=
  match st.dailyUsage.find? (usageKey uid today) with
  | some r => (st, r)
  | none =>
    let r : DailyUsage := ⟨uid, today, 0⟩
    ({ st with dailyUsage := st.dailyUsage ++ [r] }, r)

/-- Embeds `UserService._get_daily_analysis_limit`
(src/src/services/user_service.py, lines 493-499): unlimited (-1) for a
valid membership, otherwise the configured free-tier default. -/
def get_daily_analysis_limit (u : User) (now : Nat) (freeLimit : Nat) : Int :=
  if u.is_membership_valid now then -1 else (freeLimit : Int)

/-- Embeds `UserService.check_analysis_limit` (src/src/services/user_service.py,
lines 377-404): `(state, can_continue, used_today, limit)`. -/
def check_analysis_limit (st : WebState) (uid today now freeLimit : Nat) :
    WebState × Bool × Nat × Int :=
  match st.users.find? (fun u => u.id == uid) with
  | none => (st, false, 0, 0)
  | some u =>
    let limit := get_daily_analysis_limit u now freeLimit
    let r := get_today_usage st uid today
    if limit = -1 then (r.1, true, r.2.analysisCount, limit)
    else (r.1, decide ((r.2.analysisCount : Int) < limit), r.2.analysisCount, limit)

/-- Embeds `UserService.increment_analysis_count`
(src/src/services/user_service.py, lines 406-463).  Step one (the
`daily_usage` upsert) is mandatory: its session error — modelled by the
`dailyExc` oracle — rolls back and re-raises.  Step two (the lifetime
counter on the user row) is soft: its error (`lifetimeExc`) is swallowed.
The commit flushes the fetched ORM object's incremented value
(`r.analysisCount + 1`) back to the row, which is a read-then-write, not an
atomic in-store increment. -/
def increment_analysis_count (st : WebState) (uid today : Nat)
    (dailyExc lifetimeExc : Bool) : Except String (WebState × Nat) :=
  match dailyExc with
  | true => .error "daily_usage update failed"
  | false =>
    let step1 : WebState × Nat :=
      match st.dailyUsage.find? (usageKey uid today) with
      | none => ({ st with dailyUsage := st.dailyUsage ++ [⟨uid, today, 1⟩] }, 1)
      | some r =>
        ({ st with dailyUsage := st.dailyUsage.map (fun x =>
            if usageKey uid today x then { x with analysisCount := r.analysisCount + 1 }
            else x) }, r.analysisCount + 1)
    match lifetimeExc with
    | true => .ok step1
    | false =>
      match step1.1.users.find? (fun u => u.id == uid) with
      | none => .ok step1
      | some _ =>
        .ok ({ step1.1 with users := step1.1.users.map (fun u =>
            if u.id == uid then { u with totalAnalysisCount := u.totalAnalysisCount + 1 }
            else u) }, step1.2)

/-- Embeds `AnalysisService._increment_user_analysis_count`
(src/web/services.py, lines 527-535): the whole ledger call sits inside a
`try`/`except` that logs and swallows any failure. -/
def increment_user_analysis_count (st : WebState) (uid today : Nat)
    (dailyExc lifetimeExc : Bool) : WebState :=
  match increment_analysis_count st uid today dailyExc lifetimeExc with
  | .ok r => r.1
  | .error _ => st

/-- Result of `submit_analysis`: the returned dict is always a success dict,
and the unit of work is handed to the executor unconditionally. -/
structure SubmitResult where
  success : Bool
  taskId : String
  st : WebState
  dispatched : Bool
deriving Repr, DecidableEq

/-- Embeds `AnalysisService.submit_analysis` (src/web/services.py, lines
198-262): record the pending task (memory cache plus, best effort, the
durable row — one record here), charge the ledger when an owning user is
present (failures swallowed), submit to the thread pool, return success. -/
def submit_analysis (st : WebState) (code : String) (userId : Option Nat)
    (today : Nat) (taskId : String) (dailyExc lifetimeExc : Bool) : SubmitResult :=
  let task : TaskRec := ⟨taskId, code, "pending", userId, none, none⟩
  let st1 : WebState := { st with tasks := st.tasks ++ [task] }
  let st2 : WebState :=
    if truthy userId then
      increment_user_analysis_count st1 (userId.getD 0) today dailyExc lifetimeExc
    else st1
  ⟨true, taskId, st2, true⟩

/-- Per-record effect of `_update_task_status`: rewrite the status of the
record with this task id, attaching the result or the error when given. -/
def taskPatch (taskId status : String) (resultData : Option ResultData)
    (errMsg : Option String) (t : TaskRec) : TaskRec :=
  if t.taskId == taskId then
    { t with status := status,
             result := match resultData with | some r => some r | none => t.result,
             errMsg := match errMsg with | some e => some e | none => t.errMsg }
  else t

/-- Embeds `AnalysisService._update_task_status` (src/web/services.py, lines
389-410), applied to the in-memory cache and the durable row alike. -/
def update_task_status (st : WebState) (taskId status : String)
    (resultData : Option ResultData) (errMsg : Option String) : WebState :=
  { st with tasks := st.tasks.map (taskPatch taskId status resultData errMsg) }

/-- Embeds `AnalysisService._save_analysis_history` (src/web/services.py,
lines 537-573), which appends one history row (failures swallowed). -/
def save_analysis_history (st : WebState) (uid : Nat) (taskId : String)
    (r : ResultData) : WebState :=
  { st with history := st.history ++ [⟨uid, taskId, r.code, r.name⟩] }

/-- Embeds `AnalysisService._send_report_to_user_email` (src/web/services.py,
lines 575-626): skip when the user has no address or the mail collaborator
is unconfigured, otherwise hand one message to the notifier. -/
def send_report_to_user_email (st : WebState) (uid : Nat) (r : ResultData)
    (emailConfigured : Bool) : WebState :=
  match (st.users.find? (fun u => u.id == uid)).bind (fun u => u.email) with
  | none => st
  | some addr =>
    if emailConfigured then { st with emailsSent := st.emailsSent ++ [(addr, r.code)] }
    else st

/-- Outcome of the external analysis unit of work inside `_run_analysis`: a
structured result, an empty result, or a raised exception. -/
inductive RunOutcome where
  | ok (r : ResultData)
  | empty
  | exc (msg : String)
deriving Repr, DecidableEq

/-- Embeds `AnalysisService._run_analysis` (src/web/services.py, lines
302-387), returning the final state together with the list of statuses it
wrote through `_update_task_status`, in order. -/
def run_analysis (st : WebState) (taskId : String) (userId : Option Nat)
    (outcome : RunOutcome) (persistToDb emailConfigured : Bool) :
    WebState × List String :=
  let st1 := update_task_status st taskId "running" none none
  match outcome with
  | .ok r =>
    let st2 := update_task_status st1 taskId "completed" (some r) none
    let st3 := if truthy userId && persistToDb then
        save_analysis_history st2 (userId.getD 0) taskId r else st2
    let st4 := if truthy userId then
        send_report_to_user_email st3 (userId.getD 0) r emailConfigured else st3
    (st4, ["running", "completed"])
  | .empty =>
    (update_task_status st1 taskId "failed" none (some "分析返回空结果"), ["running", "failed"])
  | .exc msg =>
    (update_task_status st1 taskId "failed" none (some msg), ["running", "failed"])

/-- One admitted submission followed by its worker run, with the full status
sequence written for the task (creation writes `pending`). -/
def submit_then_run (st : WebState) (code : String) (userId : Option Nat)
    (today : Nat) (taskId : String) (dailyExc lifetimeExc : Bool)
    (outcome : RunOutcome) (persistToDb emailConfigured : Bool) :
    WebState × List String :=
  let sub := submit_analysis st code userId today taskId dailyExc lifetimeExc
  let r := run_analysis sub.st taskId userId outcome persistToDb emailConfigured
  (r.1, "pending" :: r.2)

/-- Key-preserving maps commute with key-based lookup. -/
theorem find?_map_comm (f : α → α) (p : α → Bool) (hp : ∀ a, p (f a) = p a)
    (l : List α) : (l.map f).find? p = (l.find? p).map f := by
  induction l with
  | nil => rfl
  | cons a t ih =>
    cases h : p a with
    | true =>
      rw [List.map_cons, List.find?_cons_of_pos _ (by rw [hp]; exact h),
        List.find?_cons_of_pos _ h, Option.map_some']
    | false =>
      rw [List.map_cons, List.find?_cons_of_neg _ (by rw [hp]; simp [h]),
        List.find?_cons_of_neg _ (by simp [h]), ih]

/-- The ledger call never touches tasks, history or sent mail. -/
theorem increment_user_frame (st : WebState) (uid today : Nat) (d l : Bool) :
    (increment_user_analysis_count st uid today d l).tasks = st.tasks ∧
    (increment_user_analysis_count st uid today d l).history = st.history ∧
    (increment_user_analysis_count st uid today d l).emailsSent = st.emailsSent := by
  unfold increment_user_analysis_count increment_analysis_count
  cases d with
  | true => exact ⟨rfl, rfl, rfl⟩
  | false =>
    dsimp only
    cases h : st.dailyUsage.find? (usageKey uid today) with
    | none =>
      cases l with
      | true => exact ⟨rfl, rfl, rfl⟩
      | false =>
        dsimp only
        cases h2 : ({ st with dailyUsage := st.dailyUsage ++ [⟨uid, today, 1⟩] } :
            WebState).users.find? (fun u => u.id == uid) with
        | none => exact ⟨rfl, rfl, rfl⟩
        | some u => exact ⟨rfl, rfl, rfl⟩
    | some r =>
      cases l with
      | true => exact ⟨rfl, rfl, rfl⟩
      | false =>
        dsimp only
        cases h2 : ({ st with dailyUsage := st.dailyUsage.map (fun x =>
            if usageKey uid today x then { x with analysisCount := r.analysisCount + 1 }
            else x) } : WebState).users.find? (fun u => u.id == uid) with
        | none => exact ⟨rfl, rfl, rfl⟩
        | some u => exact ⟨rfl, rfl, rfl⟩

/-- Submission always appends exactly one pending task record. -/
theorem submit_analysis_tasks (st : WebState) (code : String) (userId : Option Nat)
    (today : Nat) (taskId : String) (dailyExc lifetimeExc : Bool) :
    (submit_analysis st code userId today taskId dailyExc lifetimeExc).st.tasks =
      st.tasks ++ [⟨taskId, code, "pending", userId, none, none⟩] := by
  unfold submit_analysis
  cases hu : truthy userId with
  | false => rfl
  | true =>
    dsimp only [hu, if_true]
    exact (increment_user_frame _ _ _ _ _).1

/-- The notifier call never touches the task list. -/
theorem send_report_tasks (st : WebState) (uid : Nat) (r : ResultData) (e : Bool) :
    (send_report_to_user_email st uid r e).tasks = st.tasks := by
  unfold send_report_to_user_email
  cases h : (st.users.find? (fun u => u.id == uid)).bind (fun u => u.email) with
  | none => rfl
  | some addr => cases e <;> rfl

/-- Left part of an append contributes nothing to a lookup when every element
of it fails the predicate. -/
theorem find?_append_right (l1 l2 : List α) (p : α → Bool)
    (h : ∀ x ∈ l1, p x = false) : (l1 ++ l2).find? p = l2.find? p := by
  induction l1 with
  | nil => rfl
  | cons a t ih =>
    rw [List.cons_append, List.find?_cons_of_neg _ (by simp [h a (by simp)])]
    exact ih (fun x hx => h x (by simp [hx]))

/-- Status rewriting preserves the key that task lookups use. -/
theorem taskPatch_key (tid status : String) (rd : Option ResultData)
    (em : Option String) (t : TaskRec) :
    ((taskPatch tid status rd em t).taskId == tid) = (t.taskId == tid) := by
  unfold taskPatch
  cases h : t.taskId == tid <;> simp [h]

/-- C7: the status sequence of a task is exactly
`pending → running → terminal` — a submission followed by its worker run
writes `pending`, then `running`, then exactly one terminal status
(`completed` or `failed`), and the task record afterwards carries that
terminal status; no write follows the terminal one. -/
theorem C7_status_lifecycle (st : WebState) (code : String) (userId : Option Nat)
    (today : Nat) (taskId : String) (dailyExc lifetimeExc : Bool)
    (outcome : RunOutcome) (persistToDb emailConfigured : Bool)
    (hfresh : ∀ t ∈ st.tasks, (t.taskId == taskId) = false) :
    ∃ t, (t = "completed" ∨ t = "failed") ∧
      (submit_then_run st code userId today taskId dailyExc lifetimeExc outcome
          persistToDb emailConfigured).2 = ["pending", "running", t] ∧
      ((submit_then_run st code userId today taskId dailyExc lifetimeExc outcome
          persistToDb emailConfigured).1.tasks.find?
        (fun x => x.taskId == taskId)).map (fun x => x.status) = some t := by
  have htasks := submit_analysis_tasks st code userId today taskId dailyExc lifetimeExc
  have hfind0 : (st.tasks ++ [(⟨taskId, code, "pending", userId, none, none⟩ : TaskRec)]).find?
      (fun x => x.taskId == taskId) =
      some ⟨taskId, code, "pending", userId, none, none⟩ := by
    rw [find?_append_right _ _ _ hfresh]
    simp
  cases outcome with
  | ok r =>
    refine ⟨"completed", Or.inl rfl, rfl, ?_⟩
    have hframe : (submit_then_run st code userId today taskId dailyExc lifetimeExc (.ok r)
        persistToDb emailConfigured).1.tasks =
        ((submit_analysis st code userId today taskId dailyExc lifetimeExc).st.tasks.map
          (taskPatch taskId "running" none none)).map
          (taskPatch taskId "completed" (some r) none) := by
      unfold submit_then_run run_analysis
      dsimp only
      cases hu : truthy userId with
      | false => simp only [hu, Bool.false_and, Bool.false_eq_true, if_false]; rfl
      | true =>
        simp only [hu, Bool.true_and, if_true]
        cases hp : persistToDb with
        | false =>
          simp only [Bool.false_eq_true, if_false]
          exact send_report_tasks _ _ _ _
        | true =>
          simp only [if_true]
          exact send_report_tasks _ _ _ _
    rw [hframe, htasks, find?_map_comm _ _ (taskPatch_key taskId "completed" (some r) none),
      find?_map_comm _ _ (taskPatch_key taskId "running" none none), hfind0]
    simp [taskPatch]
  | empty =>
    refine ⟨"failed", Or.inr rfl, rfl, ?_⟩
    have hframe : (submit_then_run st code userId today taskId dailyExc lifetimeExc .empty
        persistToDb emailConfigured).1.tasks =
        ((submit_analysis st code userId today taskId dailyExc lifetimeExc).st.tasks.map
          (taskPatch taskId "running" none none)).map
          (taskPatch taskId "failed" none (some "分析返回空结果")) := rfl
    rw [hframe, htasks,
      find?_map_comm _ _ (taskPatch_key taskId "failed" none (some "分析返回空结果")),
      find?_map_comm _ _ (taskPatch_key taskId "running" none none), hfind0]
    simp [taskPatch]
  | exc msg =>
    refine ⟨"failed", Or.inr rfl, rfl, ?_⟩
    have hframe : (submit_then_run st code userId today taskId dailyExc lifetimeExc
        (.exc msg) persistToDb emailConfigured).1.tasks =
        ((submit_analysis st code userId today taskId dailyExc lifetimeExc).st.tasks.map
          (taskPatch taskId "running" none none)).map
          (taskPatch taskId "failed" none (some msg)) := rfl
    rw [hframe, htasks, find?_map_comm _ _ (taskPatch_key taskId "failed" none (some msg)),
      find?_map_comm _ _ (taskPatch_key taskId "running" none none), hfind0]
    simp [taskPatch]

/-- An ordinary free user for the web-side scenarios. -/
def sampleWebUser : User := ⟨1, some "user1@example.com", "free", none, none, 0⟩

/-- Web state holding just that user: no tasks, no usage rows yet. -/
def sampleWeb0 : WebState := ⟨[], [], [sampleWebUser], [], []⟩

/-- Witness for C7 at a concrete state: a successful run of a fresh task
ends with status `completed` after writes pending, running, completed. -/
theorem C7_status_lifecycle_witness :
    (∀ t ∈ sampleWeb0.tasks, (t.taskId == "t1") = false) ∧
    ∃ t, (t = "completed" ∨ t = "failed") ∧
      (submit_then_run sampleWeb0 "600000" (some 1) 0 "t1" false false
          (.ok ⟨"600000", "浦发银行", 80, "买入"⟩) true true).2 = ["pending", "running", t] ∧
      ((submit_then_run sampleWeb0 "600000" (some 1) 0 "t1" false false
          (.ok ⟨"600000", "浦发银行", 80, "买入"⟩) true true).1.tasks.find?
        (fun x => x.taskId == "t1")).map (fun x => x.status) = some t :=
  ⟨by decide,
   C7_status_lifecycle sampleWeb0 "600000" (some 1) 0 "t1" false false
     (.ok ⟨"600000", "浦发银行", 80, "买入"⟩) true true (by decide)⟩

/-- C4 counterexample: with the per-(user, day) charge failing (`dailyExc`),
the ledger call errors, yet `submit_analysis` still returns success and
still dispatches the unit of work — refuting the claim that a failed charge
fails the submission and prevents dispatch. -/
theorem C4_counterexample_charge_failure_still_submits :
    increment_analysis_count sampleWeb0 1 0 true false =
      .error "daily_usage update failed" ∧
    (submit_analysis sampleWeb0 "600000" (some 1) 0 "t1" true false).success = true ∧
    (submit_analysis sampleWeb0 "600000" (some 1) 0 "t1" true false).dispatched = true := by
  exact ⟨rfl, rfl, rfl⟩

/-- C4 (amended): charging is not a hard dependency of admission — a failed
per-(user, day) charge is caught and logged inside
`_increment_user_analysis_count`, so the submission still succeeds and still
dispatches, with the ledger and user rows left unchanged; within the ledger
call itself the daily increment is the mandatory first step (its failure
aborts the call, so the lifetime counter is never attempted), and a lifetime
counter failure alone is soft (the daily charge still lands, the user row is
untouched). -/
theorem C4_charge_is_swallowed (st : WebState) (code : String) (uid today : Nat)
    (taskId : String) (lifetimeExc : Bool) (huid : truthy (some uid) = true) :
    ((submit_analysis st code (some uid) today taskId true lifetimeExc).success = true ∧
     (submit_analysis st code (some uid) today taskId true lifetimeExc).dispatched = true ∧
     (submit_analysis st code (some uid) today taskId true lifetimeExc).st.dailyUsage =
       st.dailyUsage ∧
     (submit_analysis st code (some uid) today taskId true lifetimeExc).st.users = st.users) ∧
    (increment_analysis_count st uid today true lifetimeExc =
      .error "daily_usage update failed") ∧
    (∃ st1 cnt, increment_analysis_count st uid today false true = .ok (st1, cnt) ∧
      st1.users = st.users) := by
  refine ⟨?_, rfl, ?_⟩
  · unfold submit_analysis increment_user_analysis_count increment_analysis_count
    simp [huid]
  · unfold increment_analysis_count
    cases h : st.dailyUsage.find? (usageKey uid today) with
    | none => exact ⟨_, _, rfl, rfl⟩
    | some r => exact ⟨_, _, rfl, rfl⟩

/-- Witness for the amended C4 at a concrete state: user 1's failed charge
is swallowed and the submission dispatches anyway. -/
theorem C4_charge_is_swallowed_witness :
    truthy (some 1) = true ∧
    (((submit_analysis sampleWeb0 "600000" (some 1) 0 "t1" true false).success = true ∧
      (submit_analysis sampleWeb0 "600000" (some 1) 0 "t1" true false).dispatched = true ∧
      (submit_analysis sampleWeb0 "600000" (some 1) 0 "t1" true false).st.dailyUsage =
        sampleWeb0.dailyUsage ∧
      (submit_analysis sampleWeb0 "600000" (some 1) 0 "t1" true false).st.users =
        sampleWeb0.users) ∧
     (increment_analysis_count sampleWeb0 1 0 true false =
       .error "daily_usage update failed") ∧
     (∃ st1 cnt, increment_analysis_count sampleWeb0 1 0 false true = .ok (st1, cnt) ∧
       st1.users = sampleWeb0.users)) :=
  ⟨by decide, C4_charge_is_swallowed sampleWeb0 "600000" 1 0 "t1" false (by decide)⟩

/-- C10: an anonymous submission (no owning user) touches only the task
record — submission succeeds, appends exactly one pending task, and neither
phase changes the quota ledger, the user rows, the analysis history or the
sent mail; the worker still drives the task through `running` to one
terminal status. -/
theorem C10_anonymous_frame (st : WebState) (code : String) (today : Nat)
    (taskId : String) (dailyExc lifetimeExc : Bool) (outcome : RunOutcome)
    (persistToDb emailConfigured : Bool) :
    (submit_analysis st code none today taskId dailyExc lifetimeExc).success = true ∧
    (submit_analysis st code none today taskId dailyExc lifetimeExc).st.tasks =
      st.tasks ++ [⟨taskId, code, "pending", none, none, none⟩] ∧
    (submit_analysis st code none today taskId dailyExc lifetimeExc).st.dailyUsage =
      st.dailyUsage ∧
    (submit_analysis st code none today taskId dailyExc lifetimeExc).st.users = st.users ∧
    (submit_analysis st code none today taskId dailyExc lifetimeExc).st.history =
      st.history ∧
    (submit_analysis st code none today taskId dailyExc lifetimeExc).st.emailsSent =
      st.emailsSent ∧
    (run_analysis (submit_analysis st code none today taskId dailyExc lifetimeExc).st
        taskId none outcome persistToDb emailConfigured).1.dailyUsage = st.dailyUsage ∧
    (run_analysis (submit_analysis st code none today taskId dailyExc lifetimeExc).st
        taskId none outcome persistToDb emailConfigured).1.users = st.users ∧
    (run_analysis (submit_analysis st code none today taskId dailyExc lifetimeExc).st
        taskId none outcome persistToDb emailConfigured).1.history = st.history ∧
    (run_analysis (submit_analysis st code none today taskId dailyExc lifetimeExc).st
        taskId none outcome persistToDb emailConfigured).1.emailsSent = st.emailsSent ∧
    ((run_analysis (submit_analysis st code none today taskId dailyExc lifetimeExc).st
        taskId none outcome persistToDb emailConfigured).2 = ["running", "completed"] ∨
     (run_analysis (submit_analysis st code none today taskId dailyExc lifetimeExc).st
        taskId none outcome persistToDb emailConfigured).2 = ["running", "failed"]) := by
  cases outcome with
  | ok r =>
    exact ⟨rfl, rfl, rfl, rfl, rfl, rfl, rfl, rfl, rfl, rfl, Or.inl rfl⟩
  | empty =>
    exact ⟨rfl, rfl, rfl, rfl, rfl, rfl, rfl, rfl, rfl, rfl, Or.inr rfl⟩
  | exc msg =>
    exact ⟨rfl, rfl, rfl, rfl, rfl, rfl, rfl, rfl, rfl, rfl, Or.inr rfl⟩

/-- One operation of the orchestrator/ledger surface that can touch the
`daily_usage` table: a submission, a bare ledger charge, or a quota check
(self-contained, with its lazy row creation). -/
inductive LedgerOp where
  | submit (code : String) (userId : Option Nat) (today : Nat) (taskId : String)
      (dailyExc lifetimeExc : Bool)
  | charge (uid today : Nat) (dailyExc lifetimeExc : Bool)
  | check (uid today now freeLimit : Nat)
deriving Repr, DecidableEq

/-- Runs one `LedgerOp` against the state. -/
def applyOp (st : WebState) : LedgerOp → WebState
  | .submit code userId today taskId d l => (submit_analysis st code userId today taskId d l).st
  | .charge uid today d l => increment_user_analysis_count st uid today d l
  | .check uid today now fl => (check_analysis_limit st uid today now fl).1

/-- Runs a sequence of ledger operations left to right. -/
def applyOps (st : WebState) (ops : List LedgerOp) : WebState :=
  ops.foldl applyOp st

/-- The per-(user, day) key of each `daily_usage` row. -/
def usageKeys (st : WebState) : List (Nat × Nat) :=
  st.dailyUsage.map (fun r => (r.userId, r.usageDate))

/-- At most one `daily_usage` row per (user, date). -/
def usageUniq (st : WebState) : Prop := (usageKeys st).Nodup

/-- A failed lookup means the key is absent from the key list. -/
theorem usage_not_mem_of_find?_none (l : List DailyUsage) (uid today : Nat)
    (h : l.find? (usageKey uid today) = none) :
    (uid, today) ∉ l.map (fun r => (r.userId, r.usageDate)) := by
  intro hmem
  rw [List.mem_map] at hmem
  obtain ⟨r, hr, hkey⟩ := hmem
  have := List.find?_eq_none.mp h r hr
  apply this
  unfold usageKey
  have h1 : r.userId = uid := congrArg Prod.fst hkey
  have h2 : r.usageDate = today := congrArg Prod.snd hkey
  simp [h1, h2]

/-- The count-patch map leaves every key unchanged. -/
theorem usage_map_keys (l : List DailyUsage) (f : DailyUsage → DailyUsage)
    (hf : ∀ r, (f r).userId = r.userId ∧ (f r).usageDate = r.usageDate) :
    (l.map f).map (fun r => (r.userId, r.usageDate)) =
      l.map (fun r => (r.userId, r.usageDate)) := by
  rw [List.map_map]
  exact List.map_congr_left (fun r _ => by simp [(hf r).1, (hf r).2])

/-- The swallowed ledger charge preserves per-(user, day) uniqueness. -/
theorem increment_user_uniq (st : WebState) (uid today : Nat) (d l : Bool)
    (h : usageUniq st) : usageUniq (increment_user_analysis_count st uid today d l) := by
  unfold increment_user_analysis_count increment_analysis_count
  cases d with
  | true => exact h
  | false =>
    dsimp only
    cases hfind : st.dailyUsage.find? (usageKey uid today) with
    | none =>
      have hnew : usageUniq { st with dailyUsage := st.dailyUsage ++ [⟨uid, today, 1⟩] } := by
        unfold usageUniq usageKeys at h ⊢
        rw [List.map_append, List.nodup_append]
        exact ⟨h, List.nodup_singleton _, by
          simp only [List.map_cons, List.map_nil, List.disjoint_singleton]
          exact usage_not_mem_of_find?_none _ _ _ hfind⟩
      cases l with
      | true => exact hnew
      | false =>
        dsimp only
        cases h2 : ({ st with dailyUsage := st.dailyUsage ++ [⟨uid, today, 1⟩] } :
            WebState).users.find? (fun u => u.id == uid) with
        | none => exact hnew
        | some u => exact hnew
    | some r =>
      have hnew : usageUniq { st with dailyUsage := st.dailyUsage.map (fun x =>
          if usageKey uid today x then { x with analysisCount := r.analysisCount + 1 }
          else x) } := by
        unfold usageUniq usageKeys at h ⊢
        rw [usage_map_keys _ _ (fun x => by
          by_cases hc : usageKey uid today x = true <;> simp [hc])]
        exact h
      cases l with
      | true => exact hnew
      | false =>
        dsimp only
        cases h2 : ({ st with dailyUsage := st.dailyUsage.map (fun x =>
            if usageKey uid today x then { x with analysisCount := r.analysisCount + 1 }
            else x) } : WebState).users.find? (fun u => u.id == uid) with
        | none => exact hnew
        | some u => exact hnew

/-- Submission preserves per-(user, day) uniqueness. -/
theorem submit_uniq (st : WebState) (code : String) (userId : Option Nat) (today : Nat)
    (taskId : String) (d l : Bool) (h : usageUniq st) :
    usageUniq (submit_analysis st code userId today taskId d l).st := by
  unfold submit_analysis
  cases hu : truthy userId with
  | false => exact h
  | true =>
    dsimp only [hu, if_true]
    exact increment_user_uniq _ _ _ _ _ h

/-- The quota check (with its lazy row creation) preserves uniqueness. -/
theorem check_uniq (st : WebState) (uid today now fl : Nat) (h : usageUniq st) :
    usageUniq (check_analysis_limit st uid today now fl).1 := by
  unfold check_analysis_limit get_today_usage
  cases hu : st.users.find? (fun u => u.id == uid) with
  | none => exact h
  | some u =>
    dsimp only
    cases hfind : st.dailyUsage.find? (usageKey uid today) with
    | none =>
      have hnew : usageUniq { st with dailyUsage := st.dailyUsage ++ [⟨uid, today, 0⟩] } := by
        unfold usageUniq usageKeys at h ⊢
        rw [List.map_append, List.nodup_append]
        exact ⟨h, List.nodup_singleton _, by
          simp only [List.map_cons, List.map_nil, List.disjoint_singleton]
          exact usage_not_mem_of_find?_none _ _ _ hfind⟩
      by_cases hl : get_daily_analysis_limit u now fl = -1
      · rw [if_pos hl]; exact hnew
      · rw [if_neg hl]; exact hnew
    | some r =>
      by_cases hl : get_daily_analysis_limit u now fl = -1
      · rw [if_pos hl]; exact h
      · rw [if_neg hl]; exact h

/-- The keyed count patch leaves the lookup key of every row unchanged. -/
theorem usagePatch_key (uid today c : Nat) (a : DailyUsage) :
    usageKey uid today
      (if usageKey uid today a then { a with analysisCount := c } else a) =
      usageKey uid today a := by
  cases hc : usageKey uid today a with
  | false => simp [hc]
  | true =>
    simp only [hc, if_true]
    unfold usageKey at hc ⊢
    exact hc

/-- A row found under the (user, day) key is that user's row for that day. -/
theorem usageKey_fields (uid today : Nat) (r : DailyUsage)
    (h : usageKey uid today r = true) : r.userId = uid ∧ r.usageDate = today := by
  unfold usageKey at h
  rw [Bool.and_eq_true] at h
  exact ⟨eq_of_beq h.1, eq_of_beq h.2⟩

/-- C5 counterexample: the code does not keep `analysis_count` within the
effective daily limit — six plain submissions by a free user with limit 5
drive the single (user, day) row to count 6, strictly above the limit the
code itself reports for that user, refuting the bound half of the claimed
invariant. -/
def sixSubmitsState : WebState :=
  applyOps sampleWeb0 (List.replicate 6 (.submit "600000" (some 1) 0 "t1" false false))

theorem C5_counterexample_limit_exceeded :
    sixSubmitsState.dailyUsage = [⟨1, 0, 6⟩] ∧
    get_daily_analysis_limit sampleWebUser 0 5 = 5 ∧
    (check_analysis_limit sixSubmitsState 1 0 0 5).2 = (false, 6, 5) ∧
    ¬ ((6 : Int) ≤ 5) := by
  exact ⟨by decide, by decide, by decide, by decide⟩

/-- C5 (amended): over every sequence of submit, charge and check
operations, at most one `daily_usage` row per (user, date) is maintained;
but the count is not bounded by the effective limit — `submit_analysis`
charges unconditionally — and the bound holds only for a charge guarded by a
passing `check_analysis_limit` with a finite limit, which leaves the stored
count at most the limit. -/
theorem C5_usage_row_invariant :
    (∀ st ops, usageUniq st → usageUniq (applyOps st ops)) ∧
    (∀ (st : WebState) (uid today now fl : Nat) (st2 : WebState) (cnt : Nat),
      (check_analysis_limit st uid today now fl).2.1 = true →
      (check_analysis_limit st uid today now fl).2.2.2 ≠ -1 →
      increment_analysis_count (check_analysis_limit st uid today now fl).1 uid today
        false false = .ok (st2, cnt) →
      st2.dailyUsage.find? (usageKey uid today) = some ⟨uid, today, cnt⟩ ∧
      (cnt : Int) ≤ (check_analysis_limit st uid today now fl).2.2.2) := by
  constructor
  · intro st ops
    induction ops generalizing st with
    | nil => exact fun h => h
    | cons op rest ih =>
      intro h
      refine ih _ ?_
      cases op with
      | submit code userId today taskId d l => exact submit_uniq _ _ _ _ _ _ _ h
      | charge uid today d l => exact increment_user_uniq _ _ _ _ _ h
      | check uid today now fl => exact check_uniq _ _ _ _ _ h
  · intro st uid today now fl st2 cnt hok hlim hinc
    cases hu : st.users.find? (fun u => u.id == uid) with
    | none =>
      have hfalse : (check_analysis_limit st uid today now fl).2.1 = false := by
        unfold check_analysis_limit
        rw [hu]
      rw [hfalse] at hok
      exact absurd hok (by simp)
    | some u =>
      by_cases hl : get_daily_analysis_limit u now fl = -1
      · have hlimEq : (check_analysis_limit st uid today now fl).2.2.2 =
            get_daily_analysis_limit u now fl := by
          unfold check_analysis_limit
          rw [hu]
          dsimp only
          rw [if_pos hl]
        rw [hlimEq] at hlim
        exact absurd hl hlim
      · have hlimEq : (check_analysis_limit st uid today now fl).2.2.2 =
            get_daily_analysis_limit u now fl := by
          unfold check_analysis_limit
          rw [hu]
          dsimp only
          rw [if_neg hl]
        have hokEq : (check_analysis_limit st uid today now fl).2.1 =
            decide (((get_today_usage st uid today).2.analysisCount : Int) <
              get_daily_analysis_limit u now fl) := by
          unfold check_analysis_limit
          rw [hu]
          dsimp only
          rw [if_neg hl]
        have hstEq : (check_analysis_limit st uid today now fl).1 =
            (get_today_usage st uid today).1 := by
          unfold check_analysis_limit
          rw [hu]
          dsimp only
          rw [if_neg hl]
        rw [hokEq] at hok
        rw [hlimEq] at hlim ⊢
        rw [hstEq] at hinc
        cases hfind : st.dailyUsage.find? (usageKey uid today) with
        | some row =>
          have hgtu : get_today_usage st uid today = (st, row) := by
            unfold get_today_usage
            rw [hfind]
          rw [hgtu] at hok hinc
          dsimp only at hok hinc
          have hused := of_decide_eq_true hok
          have hkey := List.find?_some hfind
          obtain ⟨hru, hrd⟩ := usageKey_fields _ _ _ hkey
          unfold increment_analysis_count at hinc
          dsimp only at hinc
          rw [hfind] at hinc
          dsimp only at hinc
          rw [hu] at hinc
          dsimp only at hinc
          injection hinc with hpair
          injection hpair with h1 h2
          subst h1
          subst h2
          constructor
          · dsimp only
            rw [find?_map_comm _ _ (usagePatch_key uid today (row.analysisCount + 1)),
              hfind]
            simp [hkey, hru, hrd]
          · omega
        | none =>
          have hgtu : get_today_usage st uid today =
              ({ st with dailyUsage := st.dailyUsage ++ [⟨uid, today, 0⟩] },
                ⟨uid, today, 0⟩) := by
            unfold get_today_usage
            rw [hfind]
          rw [hgtu] at hok hinc
          dsimp only at hok hinc
          have hused := of_decide_eq_true hok
          have hkey0 : usageKey uid today ⟨uid, today, 0⟩ = true := by
            unfold usageKey
            simp
          have hfind2 : (st.dailyUsage ++ [(⟨uid, today, 0⟩ : DailyUsage)]).find?
              (usageKey uid today) = some ⟨uid, today, 0⟩ := by
            rw [find?_append_right _ _ _ (fun x hx => by
              have hnx := List.find?_eq_none.mp hfind x hx
              simpa using hnx)]
            rw [List.find?_cons_of_pos _ hkey0]
          unfold increment_analysis_count at hinc
          dsimp only at hinc
          rw [hfind2] at hinc
          dsimp only at hinc
          rw [hu] at hinc
          dsimp only at hinc
          injection hinc with hpair
          injection hpair with h1 h2
          subst h1
          subst h2
          constructor
          · dsimp only
            rw [find?_map_comm _ _ (usagePatch_key uid today (0 + 1)), hfind2]
            simp [hkey0]
          · omega

/-- Witness for the amended C5 at concrete inputs: uniqueness survives a
submit, a charge and a check from the sample state, and one guarded charge
for user 1 (limit 5, fresh day) leaves the stored count at 1, within the
limit. -/
theorem C5_usage_row_invariant_witness :
    usageUniq sampleWeb0 ∧
    usageUniq (applyOps sampleWeb0 [.submit "600000" (some 1) 0 "t1" false false,
      .charge 1 0 false false, .check 1 0 0 5]) ∧
    (check_analysis_limit sampleWeb0 1 0 0 5).2.1 = true ∧
    (check_analysis_limit sampleWeb0 1 0 0 5).2.2.2 ≠ -1 ∧
    increment_analysis_count (check_analysis_limit sampleWeb0 1 0 0 5).1 1 0 false false =
      .ok (⟨[], [⟨1, 0, 1⟩], [⟨1, some "user1@example.com", "free", none, none, 1⟩],
        [], []⟩, 1) ∧
    ((⟨[], [⟨1, 0, 1⟩], [⟨1, some "user1@example.com", "free", none, none, 1⟩], [], []⟩ :
        WebState).dailyUsage.find? (usageKey 1 0) = some ⟨1, 0, 1⟩ ∧
      ((1 : Nat) : Int) ≤ (check_analysis_limit sampleWeb0 1 0 0 5).2.2.2) :=
  ⟨by unfold usageUniq usageKeys; decide,
   C5_usage_row_invariant.1 sampleWeb0
     [.submit "600000" (some 1) 0 "t1" false false, .charge 1 0 false false,
      .check 1 0 0 5] (by unfold usageUniq usageKeys; decide),
   by decide, by decide, rfl,
   C5_usage_row_invariant.2 sampleWeb0 1 0 0 5
     ⟨[], [⟨1, 0, 1⟩], [⟨1, some "user1@example.com", "free", none, none, 1⟩], [], []⟩ 1
     (by decide) (by decide) rfl⟩

/-- Control state of one in-flight `increment_analysis_count` call in the
interleaving model of `chargeOne`: program counter 0 (about to issue the
SELECT), 1 (holding the fetched snapshot, about to commit), 2 (done), and
the snapshot itself (`some none` = no row existed, `some (some c)` = a row
with count `c` was read). -/
structure ChargeProc where
  pc : Nat
  snap : Option (Option Nat)
deriving Repr, DecidableEq

/-- One scheduler step of a charge call, following the two session phases of
`UserService.increment_analysis_count` step one: first the `SELECT` of the
(user, day) row, then the commit that writes the fetched object's
incremented count back (or inserts a fresh row with count 1). -/
def procStep (uid today : Nat) (rows : List DailyUsage) (p : ChargeProc) :
    List DailyUsage × ChargeProc :=
  if p.pc == 0 then
    (rows, ⟨1, some ((rows.find? (usageKey uid today)).map (fun r => r.analysisCount))⟩)
  else if p.pc == 1 then
    match p.snap with
    | some none => (rows ++ [⟨uid, today, 1⟩], ⟨2, p.snap⟩)
    | some (some c) =>
      (rows.map (fun x => if usageKey uid today x then { x with analysisCount := c + 1 }
        else x), ⟨2, p.snap⟩)
    | none => (rows, p)
  else (rows, p)

/-- Two concurrent charge calls over the shared `daily_usage` table. -/
structure TwoCharges where
  rows : List DailyUsage
  procA : ChargeProc
  procB : ChargeProc
deriving Repr, DecidableEq

/-- Runs one scheduler step, picking which call advances. -/
def twoStep (uid today : Nat) (s : TwoCharges) (pickA : Bool) : TwoCharges :=
  if pickA then
    let r := procStep uid today s.rows s.procA
    ⟨r.1, r.2, s.procB⟩
  else
    let r := procStep uid today s.rows s.procB
    ⟨r.1, s.procA, r.2⟩

/-- Runs a whole interleaving of the two charge calls. -/
def runSched (uid today : Nat) (s : TwoCharges) (sched : List Bool) : TwoCharges :=
  sched.foldl (twoStep uid today) s

/-- One complete charge call run without interruption: read, then write. -/
def chargeOnceRW (uid today : Nat) (rows : List DailyUsage) : List DailyUsage :=
  let r1 := procStep uid today rows ⟨0, none⟩
  (procStep uid today r1.1 r1.2).1

/-- `n` charge calls run strictly one after another. -/
def chargeSeq (uid today : Nat) (rows : List DailyUsage) : Nat → List DailyUsage
  | 0 => rows
  | n + 1 => chargeOnceRW uid today (chargeSeq uid today rows n)

/-- The two-phase machine is the daily step of `increment_analysis_count`:
one uninterrupted read-then-write run equals the ledger call on a state with
no user rows. -/
theorem chargeOnceRW_refines (uid today : Nat) (tsk : List TaskRec)
    (rows : List DailyUsage) (hist : List HistoryRec) (em : List (String × String)) :
    ∃ cnt, increment_analysis_count ⟨tsk, rows, [], hist, em⟩ uid today false false =
      .ok (⟨tsk, chargeOnceRW uid today rows, [], hist, em⟩, cnt) := by
  unfold increment_analysis_count chargeOnceRW procStep
  cases h : rows.find? (usageKey uid today) with
  | none => exact ⟨1, rfl⟩
  | some r => exact ⟨r.analysisCount + 1, rfl⟩

/-- C6 counterexample: `increment_analysis_count` is a separate
read-then-write, so two concurrent charge calls interleaved
read-read-write-write on a fresh day row (count 0) both complete yet leave
the final count at 1, not 2 — a lost update that an atomic upsert-increment
cannot produce, refuting the claim. -/
theorem C6_counterexample_lost_update :
    (runSched 1 0 ⟨[⟨1, 0, 0⟩], ⟨0, none⟩, ⟨0, none⟩⟩ [true, false, true, false]).procA.pc
      = 2 ∧
    (runSched 1 0 ⟨[⟨1, 0, 0⟩], ⟨0, none⟩, ⟨0, none⟩⟩ [true, false, true, false]).procB.pc
      = 2 ∧
    (runSched 1 0 ⟨[⟨1, 0, 0⟩], ⟨0, none⟩, ⟨0, none⟩⟩ [true, false, true, false]).rows =
      [⟨1, 0, 1⟩] ∧
    (1 : Nat) ≠ 2 := by
  exact ⟨rfl, rfl, rfl, by decide⟩

/-- C6 (amended): the charge is a read-then-write, not an atomic upsert —
serialized, `n` charge calls starting from no row end with exactly count
`n`; each uninterrupted run coincides with the ledger call; but the
interleaving read-read-write-write of two calls on a fresh row ends with
count 1 (one increment lost). -/
theorem C6_charge_read_then_write :
    (∀ uid today n, chargeSeq uid today [] n =
      if n = 0 then [] else [⟨uid, today, n⟩]) ∧
    (∀ uid today tsk rows hist em,
      ∃ cnt, increment_analysis_count ⟨tsk, rows, [], hist, em⟩ uid today false false =
        .ok (⟨tsk, chargeOnceRW uid today rows, [], hist, em⟩, cnt)) ∧
    ((runSched 1 0 ⟨[⟨1, 0, 0⟩], ⟨0, none⟩, ⟨0, none⟩⟩ [true, false, true, false]).procA.pc
        = 2 ∧
     (runSched 1 0 ⟨[⟨1, 0, 0⟩], ⟨0, none⟩, ⟨0, none⟩⟩ [true, false, true, false]).procB.pc
        = 2 ∧
     (runSched 1 0 ⟨[⟨1, 0, 0⟩], ⟨0, none⟩, ⟨0, none⟩⟩ [true, false, true, false]).rows =
        [⟨1, 0, 1⟩]) := by
  refine ⟨?_, fun uid today tsk rows hist em => chargeOnceRW_refines uid today tsk rows hist em,
    rfl, rfl, rfl⟩
  intro uid today n
  induction n with
  | zero => rfl
  | succ k ih =>
    show chargeOnceRW uid today (chargeSeq uid today [] k) = _
    rw [ih]
    cases k with
    | zero =>
      simp only [if_pos rfl]
      unfold chargeOnceRW procStep
      simp
    | succ m =>
      simp only [Nat.succ_ne_zero, if_neg (Nat.succ_ne_zero m), if_neg (Nat.succ_ne_zero (m + 1))]
      unfold chargeOnceRW procStep
      have hkey : usageKey uid today ⟨uid, today, m + 1⟩ = true := by
        unfold usageKey
        simp
      simp [hkey]

/-- Sweep selection query of `check_expired_memberships`: status `active`
and `expire_at < now`. -/
def expPred (now : Nat) (m : UserMembership) : Bool :=
  m.status == "active" && decide (m.expireAt < now)

/-- Other-valid query inside the sweep loop: another active, unexpired
membership of the same user, excluding the row being processed. -/
def othPred (now : Nat) (m0 m : UserMembership) : Bool :=
  validQuery now m0.userId m && m.id != m0.id

/-- Free-tier reset of the denormalized snapshot performed by the sweep. -/
def resetUser (u : User) : User :=
  { u with membershipLevel := "free", membershipExpire := none }

/-- One iteration of the sweep loop of
`MembershipService.check_expired_memberships`
(src/src/services/membership_service.py, lines 478-505): mark the row
expired, look the owning user up, and reset the snapshot when no other valid
membership remains; `scalar_one_or_none` on the other-valid query can raise,
which aborts (and rolls back) the whole sweep. -/
def expireStep (now : Nat) (acc : Except String (Nat × DB)) (m0 : UserMembership) :
    Except String (Nat × DB) :=
  match acc with
  | .error e => .error e
  | .ok (count, db) =>
    let db1 : DB := { db with memberships := db.memberships.map (fun m =>
        if m.id == m0.id then { m with status := "expired" } else m) }
    match db1.users.find? (fun u => u.id == m0.userId) with
    | none => .ok (count + 1, db1)
    | some _ =>
      match scalarOneOrNone (othPred now m0) db1.memberships with
      | .error e => .error e
      | .ok (some _) => .ok (count + 1, db1)
      | .ok none =>
        .ok (count + 1, { db1 with users := db1.users.map (fun u =>
            if u.id == m0.userId then resetUser u else u) })

/-- Embeds `MembershipService.check_expired_memberships`
(src/src/services/membership_service.py, lines 459-512): select the expired
rows, process each in turn, return the count.  The two `datetime.now()`
reads of the Python body are modelled as the one instant `now`. -/
def check_expired_memberships (db : DB) (now : Nat) : Except String (Nat × DB) :=
  (db.memberships.filter (expPred now)).foldl (expireStep now) (.ok (0, db))

/-- Cumulative effect on a membership row of processing the rows in `S`:
expired when its id is among them. -/
def expireMark (S : List UserMembership) (m : UserMembership) : UserMembership :=
  if S.any (fun x => x.id == m.id) then { m with status := "expired" } else m

/-- Whether processing the rows in `S` resets this user's snapshot: the user
owns a processed row whose other-valid query over the original store came
back empty. -/
def resetCond (db : DB) (now : Nat) (S : List UserMembership) (u : User) : Bool :=
  S.any (fun m0 => m0.userId == u.id && (db.memberships.filter (othPred now m0)).isEmpty)

/-- Cumulative effect on a user row of processing the rows in `S`. -/
def resetIf (db : DB) (now : Nat) (S : List UserMembership) (u : User) : User :=
  if resetCond db now S u then resetUser u else u

/-- Closed form of the store after the sweep has processed the rows in `S`. -/
def sweepApplied (db : DB) (now : Nat) (S : List UserMembership) : DB :=
  { db with memberships := db.memberships.map (expireMark S),
            users := db.users.map (resetIf db now S) }

/-- Marking rows expired never changes ids. -/
theorem expireMark_id (S : List UserMembership) (a : UserMembership) :
    (expireMark S a).id = a.id := by
  unfold expireMark
  split <;> rfl

/-- Resetting snapshots never changes user ids. -/
theorem resetIf_id (db : DB) (now : Nat) (S : List UserMembership) (u : User) :
    (resetIf db now S u).id = u.id := by
  unfold resetIf resetUser
  split <;> rfl

/-- Processing no rows leaves the store untouched. -/
theorem sweepApplied_nil (db : DB) (now : Nat) : sweepApplied db now [] = db := by
  unfold sweepApplied expireMark resetIf resetCond
  simp

/-- A lookup by key returns the unique element carrying that key. -/
theorem find?_key_of_nodup (key : α → Nat) (l : List α)
    (hnd : (l.map key).Nodup) (m : α) (hm : m ∈ l) :
    l.find? (fun x => key x == key m) = some m := by
  induction l with
  | nil => cases hm
  | cons a t ih =>
    rw [List.map_cons, List.nodup_cons] at hnd
    cases List.mem_cons.mp hm with
    | inl h =>
      subst h
      rw [List.find?_cons_of_pos _ (by simp)]
    | inr h =>
      cases hbeq : key a == key m with
      | true =>
        exact absurd ((eq_of_beq hbeq) ▸ List.mem_map_of_mem key h) hnd.1
      | false =>
        rw [List.find?_cons_of_neg _ (by simp [hbeq])]
        exact ih hnd.2 h

/-- Sequential per-id expiry marks compose into one cumulative mark. -/
theorem expireMark_compose (P : List UserMembership) (m0 : UserMembership)
    (l : List UserMembership) :
    (l.map (expireMark P)).map (fun m => if m.id == m0.id then
      { m with status := "expired" } else m) = l.map (expireMark (P ++ [m0])) := by
  rw [List.map_map]
  refine List.map_congr_left (fun m _ => ?_)
  show (if (expireMark P m).id == m0.id then { expireMark P m with status := "expired" }
    else expireMark P m) = expireMark (P ++ [m0]) m
  unfold expireMark
  rw [List.any_append]
  by_cases h0 : m.id = m0.id
  · cases hP : P.any (fun x => x.id == m.id) <;> cases m <;> simp_all
  · have h0s : m0.id ≠ m.id := fun h => h0 h.symm
    cases hP : P.any (fun x => x.id == m.id) <;> cases m <;> simp_all

/-- Filtering ignores a map that only rewrites elements the predicate
rejects both before and after. -/
theorem filter_map_eq (f : α → α) (p : α → Bool) (l : List α)
    (h : ∀ a ∈ l, (p (f a) = false ∧ p a = false) ∨ f a = a) :
    (l.map f).filter p = l.filter p := by
  induction l with
  | nil => rfl
  | cons a t ih =>
    rw [List.map_cons, List.filter_cons, List.filter_cons]
    cases h a (List.mem_cons_self a t) with
    | inl hh =>
      rw [hh.1, hh.2]
      exact ih (fun x hx => h x (List.mem_cons_of_mem a hx))
    | inr hh =>
      rw [hh, ih (fun x hx => h x (List.mem_cons_of_mem a hx))]

/-- Marking already-expired rows does not disturb the other-valid query: a
marked row fails it before (its expiry is past) and after (its status is no
longer active). -/
theorem filter_oth_of_marked (db : DB) (now : Nat) (S : List UserMembership)
    (m0 : UserMembership)
    (hid : (db.memberships.map (fun m => m.id)).Nodup)
    (hS : ∀ x ∈ S, x ∈ db.memberships ∧ expPred now x = true) :
    (db.memberships.map (expireMark S)).filter (othPred now m0) =
      db.memberships.filter (othPred now m0) := by
  apply filter_map_eq
  intro a ha
  cases hany : S.any (fun x => x.id == a.id) with
  | false =>
    right
    unfold expireMark
    rw [hany]
    simp
  | true =>
    left
    obtain ⟨x, hxS, hxid⟩ := List.any_eq_true.mp hany
    have hxa : x = a := List.inj_on_of_nodup_map hid (hS x hxS).1 ha (eq_of_beq hxid)
    have hexp : expPred now a = true := hxa ▸ (hS x hxS).2
    have hlt : a.expireAt < now := by
      unfold expPred at hexp
      rw [Bool.and_eq_true] at hexp
      exact of_decide_eq_true hexp.2
    constructor
    · unfold expireMark
      rw [hany]
      unfold othPred validQuery
      cases a
      simp [show (("expired" : String) == "active") = false from rfl]
    · unfold othPred validQuery
      simp [decide_eq_false (by omega : ¬ (now < a.expireAt))]

/-- For a processed (hence expired) row, the other-valid query coincides
with the plain currently-valid query of its user: the excluded id can never
belong to a valid row. -/
theorem filter_oth_eq_valid (db : DB) (now : Nat) (m0 : UserMembership)
    (hid : (db.memberships.map (fun m => m.id)).Nodup)
    (hm0 : m0 ∈ db.memberships) (hexp : expPred now m0 = true) :
    db.memberships.filter (othPred now m0) =
      db.memberships.filter (validQuery now m0.userId) := by
  apply List.filter_congr
  intro a ha
  unfold othPred
  cases hv : validQuery now m0.userId a with
  | false => simp [hv]
  | true =>
    have hlt : now < a.expireAt := by
      unfold validQuery at hv
      rw [Bool.and_eq_true] at hv
      exact of_decide_eq_true hv.2
    have hm0lt : m0.expireAt < now := by
      unfold expPred at hexp
      rw [Bool.and_eq_true] at hexp
      exact of_decide_eq_true hexp.2
    have hne : a.id ≠ m0.id := by
      intro h
      have ham := List.inj_on_of_nodup_map hid ha hm0 h
      rw [ham] at hlt
      omega
    simp [hv, bne_iff_ne, hne]

/-- When the other-valid query of the newly processed row is empty, the
per-row reset composes into the cumulative one. -/
theorem resetIf_compose_empty (db : DB) (now : Nat) (P : List UserMembership)
    (m0 : UserMembership)
    (hempty : db.memberships.filter (othPred now m0) = []) :
    (db.users.map (resetIf db now P)).map
      (fun u => if u.id == m0.userId then resetUser u else u) =
      db.users.map (resetIf db now (P ++ [m0])) := by
  rw [List.map_map]
  refine List.map_congr_left (fun u _ => ?_)
  show (if (resetIf db now P u).id == m0.userId then resetUser (resetIf db now P u)
    else resetIf db now P u) = resetIf db now (P ++ [m0]) u
  unfold resetIf resetCond
  rw [List.any_append]
  simp only [List.any_cons, List.any_nil, Bool.or_false, hempty, List.isEmpty_nil,
    Bool.and_true]
  cases hP : P.any (fun x => x.userId == u.id &&
      (db.memberships.filter (othPred now x)).isEmpty) with
  | true =>
    cases u
    simp_all [resetUser]
  | false =>
    by_cases h0 : u.id = m0.userId
    · cases u
      simp_all [resetUser]
    · have h0s : m0.userId ≠ u.id := fun h => h0 h.symm
      cases u
      simp_all [resetUser]

/-- When another valid membership of the row's user remains, the new row
adds nothing to the cumulative reset. -/
theorem resetIf_stable_nonempty (db : DB) (now : Nat) (P : List UserMembership)
    (m0 : UserMembership)
    (hne : (db.memberships.filter (othPred now m0)).isEmpty = false) :
    db.users.map (resetIf db now (P ++ [m0])) = db.users.map (resetIf db now P) := by
  refine List.map_congr_left (fun u _ => ?_)
  unfold resetIf resetCond
  rw [List.any_append]
  simp [hne]

/-- When the processed row's user does not exist, the new row adds nothing
to the cumulative reset of the users that do. -/
theorem resetIf_stable_no_user (db : DB) (now : Nat) (P : List UserMembership)
    (m0 : UserMembership)
    (hnone : db.users.find? (fun u => u.id == m0.userId) = none) :
    db.users.map (resetIf db now (P ++ [m0])) = db.users.map (resetIf db now P) := by
  refine List.map_congr_left (fun u hu => ?_)
  have hf : (u.id == m0.userId) = false := by
    have hx := List.find?_eq_none.mp hnone u hu
    simpa using hx
  have hf2 : (m0.userId == u.id) = false := by
    cases h : m0.userId == u.id with
    | false => rfl
    | true =>
      have hx : u.id = m0.userId := (eq_of_beq h).symm
      simp [hx] at hf
  unfold resetIf resetCond
  rw [List.any_append]
  simp [hf2]

/-- One sweep iteration advances the closed form by one processed row. -/
theorem expireStep_closed (db : DB) (now : Nat) (P : List UserMembership)
    (m0 : UserMembership) (c0 : Nat)
    (hid : (db.memberships.map (fun m => m.id)).Nodup)
    (hval1 : (db.memberships.filter (validQuery now m0.userId)).length ≤ 1)
    (hm0 : m0 ∈ db.memberships) (hexp : expPred now m0 = true)
    (hS : ∀ x ∈ P ++ [m0], x ∈ db.memberships ∧ expPred now x = true) :
    expireStep now (.ok (c0, sweepApplied db now P)) m0 =
      .ok (c0 + 1, sweepApplied db now (P ++ [m0])) := by
  have hA : (db.memberships.map (expireMark P)).map (fun m =>
      if m.id == m0.id then { m with status := "expired" } else m) =
      db.memberships.map (expireMark (P ++ [m0])) :=
    expireMark_compose P m0 db.memberships
  have hfilterA : (db.memberships.map (expireMark (P ++ [m0]))).filter (othPred now m0) =
      db.memberships.filter (othPred now m0) :=
    filter_oth_of_marked db now (P ++ [m0]) m0 hid hS
  have hov : db.memberships.filter (othPred now m0) =
      db.memberships.filter (validQuery now m0.userId) :=
    filter_oth_eq_valid db now m0 hid hm0 hexp
  unfold expireStep sweepApplied
  dsimp only
  rw [hA, find?_map_comm (resetIf db now P) (fun u => u.id == m0.userId)
    (fun a => by simp [resetIf_id]) db.users]
  cases hu0 : db.users.find? (fun u => u.id == m0.userId) with
  | none =>
    dsimp only [Option.map_none']
    rw [resetIf_stable_no_user db now P m0 hu0]
  | some u0 =>
    dsimp only [Option.map_some']
    unfold scalarOneOrNone
    rw [hfilterA, hov]
    cases hflt : db.memberships.filter (validQuery now m0.userId) with
    | nil =>
      dsimp only
      rw [resetIf_compose_empty db now P m0 (by rw [hov, hflt])]
    | cons x xs =>
      cases xs with
      | nil =>
        dsimp only
        rw [resetIf_stable_nonempty db now P m0 (by rw [hov, hflt]; rfl)]
      | cons y ys =>
        rw [hflt] at hval1
        simp at hval1

/-- The sweep fold computes the closed form, processing one selected row at
a time. -/
theorem sweep_fold_closed (db : DB) (now : Nat)
    (hid : (db.memberships.map (fun m => m.id)).Nodup)
    (hval : ∀ m0 ∈ db.memberships,
      (db.memberships.filter (validQuery now m0.userId)).length ≤ 1) :
    ∀ (L P : List UserMembership) (c0 : Nat),
      db.memberships.filter (expPred now) = P ++ L →
      L.foldl (expireStep now) (.ok (c0, sweepApplied db now P)) =
        .ok (c0 + L.length, sweepApplied db now (P ++ L)) := by
  intro L
  induction L with
  | nil =>
    intro P c0 hPL
    simp
  | cons m0 L' ih =>
    intro P c0 hPL
    have hm0f : m0 ∈ db.memberships.filter (expPred now) := by
      rw [hPL]
      exact List.mem_append_right _ (List.mem_cons_self _ _)
    have hm0 : m0 ∈ db.memberships := (List.mem_filter.mp hm0f).1
    have hexp : expPred now m0 = true := (List.mem_filter.mp hm0f).2
    have hS : ∀ x ∈ P ++ [m0], x ∈ db.memberships ∧ expPred now x = true := by
      intro x hx
      have hxf : x ∈ db.memberships.filter (expPred now) := by
        rw [hPL]
        cases List.mem_append.mp hx with
        | inl h => exact List.mem_append_left _ h
        | inr h =>
          rw [List.mem_singleton] at h
          subst h
          exact List.mem_append_right _ (List.mem_cons_self _ _)
      exact ⟨(List.mem_filter.mp hxf).1, (List.mem_filter.mp hxf).2⟩
    have hstep := expireStep_closed db now P m0 c0 hid (hval m0 hm0) hm0 hexp hS
    rw [List.foldl_cons, hstep,
      ih (P ++ [m0]) (c0 + 1) (by rw [hPL, List.append_assoc, List.singleton_append])]
    rw [List.append_assoc, List.singleton_append, List.length_cons]
    have harith : c0 + 1 + L'.length = c0 + (L'.length + 1) := by omega
    rw [harith]

/-- C9: sweep correctness — under unique membership ids and the business
invariant of at most one currently-valid membership per user, one call to
`check_expired_memberships` succeeds, returns the number of active rows
whose expiry lies strictly before `now`, flips exactly those rows to
`expired`, and for each such row's owner resets the denormalized snapshot to
the free tier precisely when no currently-valid membership of that user
remains (the snapshot row is untouched otherwise). -/
theorem C9_sweep_correct (db : DB) (now : Nat)
    (hid : (db.memberships.map (fun m => m.id)).Nodup)
    (hval : ∀ m0 ∈ db.memberships,
      (db.memberships.filter (validQuery now m0.userId)).length ≤ 1) :
    ∃ dbf, check_expired_memberships db now =
        .ok ((db.memberships.filter (expPred now)).length, dbf) ∧
      (∀ m ∈ db.memberships, expPred now m = true →
        dbf.memberships.find? (fun x => x.id == m.id) =
          some { m with status := "expired" }) ∧
      (∀ m ∈ db.memberships, expPred now m = true →
        (db.memberships.filter (validQuery now m.userId) = [] →
          dbf.users.find? (fun x => x.id == m.userId) =
            (db.users.find? (fun x => x.id == m.userId)).map resetUser) ∧
        (db.memberships.filter (validQuery now m.userId) ≠ [] →
          dbf.users.find? (fun x => x.id == m.userId) =
            db.users.find? (fun x => x.id == m.userId))) := by
  refine ⟨sweepApplied db now (db.memberships.filter (expPred now)), ?_, ?_, ?_⟩
  · have h := sweep_fold_closed db now hid hval (db.memberships.filter (expPred now)) [] 0 rfl
    rw [sweepApplied_nil] at h
    unfold check_expired_memberships
    rw [h, List.nil_append, Nat.zero_add]
  · intro m hm hexp
    have hmS : m ∈ db.memberships.filter (expPred now) := List.mem_filter.mpr ⟨hm, hexp⟩
    show ((db.memberships.map (expireMark (db.memberships.filter (expPred now)))).find?
      (fun x => x.id == m.id)) = _
    rw [find?_map_comm (expireMark (db.memberships.filter (expPred now)))
      (fun x => x.id == m.id) (fun a => by simp [expireMark_id]) db.memberships]
    rw [show (fun x : UserMembership => x.id == m.id) =
      (fun x : UserMembership => x.id == m.id) from rfl]
    rw [find?_key_of_nodup (fun x => x.id) db.memberships hid m hm]
    rw [Option.map_some']
    unfold expireMark
    rw [List.any_eq_true.mpr ⟨m, hmS, by simp⟩]
    simp
  · intro m hm hexp
    have hmS : m ∈ db.memberships.filter (expPred now) := List.mem_filter.mpr ⟨hm, hexp⟩
    have hfu : (sweepApplied db now (db.memberships.filter (expPred now))).users.find?
        (fun x => x.id == m.userId) =
        (db.users.find? (fun x => x.id == m.userId)).map
          (resetIf db now (db.memberships.filter (expPred now))) := by
      show ((db.users.map (resetIf db now (db.memberships.filter (expPred now)))).find?
        (fun x => x.id == m.userId)) = _
      exact find?_map_comm _ _ (fun a => by simp [resetIf_id]) db.users
    constructor
    · intro hv
      rw [hfu]
      cases hu0 : db.users.find? (fun x => x.id == m.userId) with
      | none => rfl
      | some u0 =>
        rw [Option.map_some', Option.map_some']
        have hcond : resetCond db now (db.memberships.filter (expPred now)) u0 = true := by
          unfold resetCond
          refine List.any_eq_true.mpr ⟨m, hmS, ?_⟩
          have hid0 : u0.id = m.userId := by
            have hb0 : (u0.id == m.userId) = true := by
              have hraw := List.find?_some hu0
              simpa using hraw
            exact eq_of_beq hb0
          rw [filter_oth_eq_valid db now m hid hm hexp, hv, hid0]
          simp
        unfold resetIf
        rw [hcond]
        simp
    · intro hv
      rw [hfu]
      cases hu0 : db.users.find? (fun x => x.id == m.userId) with
      | none => rfl
      | some u0 =>
        rw [Option.map_some']
        have hcond : resetCond db now (db.memberships.filter (expPred now)) u0 = false := by
          unfold resetCond
          cases hc : (db.memberships.filter (expPred now)).any (fun m0 =>
              m0.userId == u0.id && (db.memberships.filter (othPred now m0)).isEmpty) with
          | false => rfl
          | true =>
            exfalso
            obtain ⟨m1, hm1S, hm1c⟩ := List.any_eq_true.mp hc
            rw [Bool.and_eq_true] at hm1c
            have hm1 : m1 ∈ db.memberships := (List.mem_filter.mp hm1S).1
            have hexp1 : expPred now m1 = true := (List.mem_filter.mp hm1S).2
            have hb0 : (u0.id == m.userId) = true := by
              have hraw := List.find?_some hu0
              simpa using hraw
            have hid0 : u0.id = m.userId := eq_of_beq hb0
            have huid : m1.userId = m.userId := by
              have := eq_of_beq hm1c.1
              rw [this, hid0]
            have hemp := hm1c.2
            rw [filter_oth_eq_valid db now m1 hid hm1 hexp1, huid] at hemp
            rw [List.isEmpty_iff] at hemp
            exact hv hemp
        unfold resetIf
        rw [hcond]
        simp

/-- An expired-but-active membership of user 7, seen at `now = 100`. -/
def sweepM1 : UserMembership := ⟨1, 7, 1, some 1, 0, 50, "active"⟩

/-- A still-valid membership of user 8 at `now = 100`. -/
def sweepM2 : UserMembership := ⟨2, 8, 1, some 2, 0, 1000, "active"⟩

/-- Store for the sweep witness: one lapsed and one valid membership. -/
def sampleSweepDB : DB :=
  ⟨[], [], [sweepM1, sweepM2],
   [⟨7, none, "monthly", some 50, none, 0⟩, ⟨8, none, "monthly", some 1000, none, 0⟩], 3⟩

/-- Witness for C9 at a concrete store: the hypotheses hold by computation
and one sweep at `now = 100` processes exactly the lapsed row. -/
theorem C9_sweep_correct_witness :
    (sampleSweepDB.memberships.map (fun m => m.id)).Nodup ∧
    (∀ m0 ∈ sampleSweepDB.memberships,
      (sampleSweepDB.memberships.filter (validQuery 100 m0.userId)).length ≤ 1) ∧
    (∃ dbf, check_expired_memberships sampleSweepDB 100 =
        .ok ((sampleSweepDB.memberships.filter (expPred 100)).length, dbf) ∧
      (∀ m ∈ sampleSweepDB.memberships, expPred 100 m = true →
        dbf.memberships.find? (fun x => x.id == m.id) =
          some { m with status := "expired" }) ∧
      (∀ m ∈ sampleSweepDB.memberships, expPred 100 m = true →
        (sampleSweepDB.memberships.filter (validQuery 100 m.userId) = [] →
          dbf.users.find? (fun x => x.id == m.userId) =
            (sampleSweepDB.users.find? (fun x => x.id == m.userId)).map resetUser) ∧
        (sampleSweepDB.memberships.filter (validQuery 100 m.userId) ≠ [] →
          dbf.users.find? (fun x => x.id == m.userId) =
            sampleSweepDB.users.find? (fun x => x.id == m.userId)))) :=
  ⟨by decide, by decide, C9_sweep_correct sampleSweepDB 100 (by decide) (by decide)⟩

end GuZhi
